import Mathlib

/-!
# Lexis — verification of the chapter-stream parser and paragraph scheduler

Shallow embedding of the core of the Lexis reading tool:

* `src/services/gutenberg.ts` — the streaming chapter/paragraph parser
  (`streamBookChapters`, `CHAPTER_RE`, `STREAM_CHUNK_SIZE`);
* `src/services/deepseek.ts` — the enrichment adapter
  (`validateSegments`, `processChunk`, `MAX_PARA_CHARS`);
* `src/hooks/useBookReader.ts` — the paragraph task scheduler
  (`enqueue` / `drain` / `process` / `reset`, `MAX_CONCURRENT`, the
  sessionStorage cache helpers and `patchParagraph`).

JavaScript strings are modelled as `List Char`; JSON values returned by the
external service as a `JValue` inductive; the asynchronous scheduler as a
labelled transition system whose reachable states we analyse.
-/

namespace Lexis

/-! ## Character/string helpers (JS semantics on `List Char`) -/

/-- JS whitespace class `\s` restricted to the ASCII characters that occur in
plain-text book streams (space, tab, LF, CR, VT, FF). -/
def isWS (c : Char) : Bool :=
  c = ' ' || c = '\t' || c = '\n' || c = '\r' || c = '\x0b' || c = '\x0c'

/-- JS `String.prototype.trimEnd`. -/
def trimEnd (l : List Char) : List Char :=
  (l.reverse.dropWhile isWS).reverse

/-- JS `String.prototype.trimStart`. -/
def trimStart (l : List Char) : List Char :=
  l.dropWhile isWS

/-- JS `String.prototype.trim`. -/
def jsTrim (l : List Char) : List Char :=
  trimStart (trimEnd l)

/-- Helper for `collapseSpaces`: `prevSpace` records whether the previous
character was a space that has already been written out. -/
def collapseSpacesAux (prevSpace : Bool) : List Char → List Char
  | [] => []
  | c :: rest =>
    if c = ' ' then
      if prevSpace then collapseSpacesAux true rest
      else ' ' :: collapseSpacesAux true rest
    else c :: collapseSpacesAux false rest

/-- JS `str.replace(/  +/g, ' ')`: every maximal run of spaces collapses to a
single space (a run of length one is left alone, which coincides with
collapsing it). -/
def collapseSpaces (l : List Char) : List Char :=
  collapseSpacesAux false l

/-- JS regex word character `\w = [A-Za-z0-9_]` (non-unicode mode). -/
def isWordChar (c : Char) : Bool :=
  ('a' ≤ c && c ≤ 'z') || ('A' ≤ c && c ≤ 'Z') || ('0' ≤ c && c ≤ '9') || c = '_'

/-- Case-insensitive prefix test (the `/i` flag on ASCII keywords). -/
def ciStartsWith : List Char → List Char → Bool
  | [], _ => true
  | _ :: _, [] => false
  | k :: ks, c :: cs => (c.toLower = k.toLower) && ciStartsWith ks cs

/-! ## `CHAPTER_RE` and the heading decision (gutenberg.ts lines 6–7, 132–140) -/

/-- The alternation in `CHAPTER_RE`. -/
def headingKeywords : List (List Char) :=
  ["chapter", "part", "book", "section", "act", "scene", "prologue",
   "epilogue", "introduction", "preface", "foreword"].map String.data

/-- `k` matches at the start of `s` followed by a `\b` word boundary:
the keyword is a case-insensitive prefix and the next character (if any) is
not a word character.  The trailing `[\s.:IVXLCDM0-9—-]*` of `CHAPTER_RE`
matches the empty string, so it does not constrain `RegExp.test`. -/
def kwMatch (k s : List Char) : Bool :=
  ciStartsWith k s &&
    (match s.drop k.length with
     | [] => true
     | c :: _ => !isWordChar c)

/-- `CHAPTER_RE.test(s)`: some heading keyword matches at the start of `s`. -/
def chapterReTest (s : List Char) : Bool :=
  headingKeywords.any (fun k => kwMatch k s)

/-- The parser's chapter-heading decision on an already-trimmed line
(gutenberg.ts lines 133–137): regex match, length below 80, and no trailing
comma. -/
def isStructuralHeading (trimmed : List Char) : Bool :=
  chapterReTest trimmed && trimmed.length < 80 && trimmed.getLast? ≠ some ','

/-! ## Start / end markers (gutenberg.ts lines 113 and 117) -/

/-- `/\*{3}\s*START OF/i` (resp. `END OF`) matching at the head of `l`:
three stars, then whitespace, then the phrase case-insensitively. -/
def markerAtHead (phrase : List Char) (l : List Char) : Bool :=
  l.take 3 = ['*', '*', '*'] && ciStartsWith phrase ((l.drop 3).dropWhile isWS)

/-- `RegExp.test` for an unanchored pattern: a match starts at some suffix. -/
def markerTest (phrase : List Char) : List Char → Bool
  | [] => markerAtHead phrase []
  | l@(_ :: rest) => markerAtHead phrase l || markerTest phrase rest

def testStartMarker (l : List Char) : Bool := markerTest "start of".data l

def testEndMarker (l : List Char) : Bool := markerTest "end of".data l

/-! ## The streaming parser (gutenberg.ts `streamBookChapters`, lines 42–154)

The byte-level buffering only reassembles `\n`-terminated lines, so the
parser is modelled as a fold over the list of raw lines of the stream. -/

/-- gutenberg.ts line 11. -/
def STREAM_CHUNK_SIZE : Nat := 30

structure Chunk where
  title : List Char
  paragraphs : List (List Char)
deriving DecidableEq, Repr

/-- The parser's mutable locals (gutenberg.ts lines 60–64) plus the chunks
emitted so far and whether the `END OF` marker returned early. -/
structure PState where
  inBook : Bool
  chapterIndex : Nat
  currentTitle : List Char
  currentParagraphs : List (List Char)
  pendingLine : List Char
  out : List Chunk
  finished : Bool
deriving DecidableEq, Repr

def initPState : PState :=
  ⟨false, 0, [], [], [], [], false⟩

/-- `` `Part ${n}` ``. -/
def partTitle (n : Nat) : List Char :=
  "Part ".data ++ (Nat.repr n).data

/-- `` currentTitle || `Part ${chapterIndex + 1}` `` — the empty string is
falsy in JS. -/
def titleOrPart (st : PState) : List Char :=
  if st.currentTitle = [] then partTitle (st.chapterIndex + 1) else st.currentTitle

/-- gutenberg.ts lines 66–70: skip empty chunks, append, bump the index. -/
def emitChunk (title : List Char) (paragraphs : List (List Char)) (st : PState) : PState :=
  if paragraphs = [] then st
  else { st with out := st.out ++ [⟨title, paragraphs⟩],
                 chapterIndex := st.chapterIndex + 1 }

/-- gutenberg.ts lines 72–85: normalize the pending line, keep it only above
the 15-character threshold, and emit early at `STREAM_CHUNK_SIZE`. -/
def flushParagraph (st : PState) : PState :=
  let p := jsTrim (collapseSpaces st.pendingLine)
  let st := { st with pendingLine := [] }
  if p.length ≤ 15 then st
  else
    let st := { st with currentParagraphs := st.currentParagraphs ++ [p] }
    if STREAM_CHUNK_SIZE ≤ st.currentParagraphs.length then
      let t := titleOrPart st
      let st := emitChunk t st.currentParagraphs st
      { st with currentParagraphs := [], currentTitle := [] }
    else st

/-- gutenberg.ts lines 87–94. -/
def flushChapterBoundary (newTitle : List Char) (st : PState) : PState :=
  let st := flushParagraph st
  let st :=
    if st.currentParagraphs ≠ [] then
      let st' := emitChunk (titleOrPart st) st.currentParagraphs st
      { st' with currentParagraphs := [] }
    else st
  { st with currentTitle := newTitle }

/-- gutenberg.ts lines 109–143: one iteration of the per-line loop. -/
def processLine (st : PState) (raw : List Char) : PState :=
  if st.finished then st
  else
    let line := trimEnd raw
    if !st.inBook then
      if testStartMarker line then { st with inBook := true } else st
    else if testEndMarker line then
      let st := flushParagraph st
      let st :=
        if st.currentParagraphs ≠ [] then
          emitChunk (titleOrPart st) st.currentParagraphs st
        else st
      { st with finished := true }
    else
      let trimmed := jsTrim line
      if trimmed = [] then flushParagraph st
      else if isStructuralHeading trimmed then flushChapterBoundary trimmed st
      else
        { st with pendingLine :=
            st.pendingLine ++ (if st.pendingLine = [] then [] else [' ']) ++ trimmed }

/-- gutenberg.ts lines 96–153: the whole stream, as the fold over its lines
followed by the final flush (lines 149–153), which the early `return` on the
`END OF` marker skips. -/
def streamChapters (lines : List (List Char)) : List Chunk :=
  let st := lines.foldl processLine initPState
  if st.finished then st.out
  else
    let st := flushParagraph st
    let st :=
      if st.currentParagraphs ≠ [] then
        emitChunk (titleOrPart st) st.currentParagraphs st
      else st
    st.out

/-! ## JSON values and the enrichment adapter (deepseek.ts)

The service is a black box behind `fetch` + `JSON.parse`: a call either
fails (HTTP error, network error, unparsable body) or yields an arbitrary
JSON value.  `JValue` models the parsed values; `none : Option JValue`
models JavaScript's `undefined` for a missing property. -/

inductive JValue where
  | jnull
  | jbool (b : Bool)
  | jnum (n : Int)
  | jstr (s : List Char)
  | jarr (xs : List JValue)
  | jobj (fields : List (List Char × JValue))
deriving Repr

/-- JS property read `v.name`: `undefined` unless `v` is an object with the
field (`typeof` of arrays and `null` is `'object'`, but neither has the
properties we read here). -/
def jGet (v : JValue) (name : List Char) : Option JValue :=
  match v with
  | .jobj fields => (fields.find? (fun f => f.1 == name)).map (·.2)
  | _ => none

inductive Lang where
  | en
  | pl
deriving DecidableEq, Repr

/-- Runtime shape of a `TextSegment` as the scheduler consumes it.  The TS
cast `as TextSegment[]` is unchecked, so `baseEn` may in fact be absent or a
non-string at runtime; `none` models that. -/
structure Seg where
  text : List Char
  lang : Lang
  baseEn : Option (List Char)
deriving DecidableEq, Repr

/-- deepseek.ts lines 86–102.  The first argument is `response.segments`
(possibly `undefined`); the second is the `_original` parameter, which the
source declares and never uses.  `typeof s === 'object' && s !== null`
admits objects and arrays; the `text` / `lang` property reads then reject
everything that is not an object carrying a string `text` and a `lang` equal
to `'en'` or `'pl'`. -/
def validateSegments (segments : Option JValue) (_original : List Char) : Bool :=
  match segments with
  | some (.jarr xs) =>
    !xs.isEmpty &&
      xs.all (fun s =>
        (match s with
         | .jnull => false
         | .jbool _ => false
         | .jnum _ => false
         | .jstr _ => false
         | _ =>
           (match jGet s "text".data with
            | some (.jstr _) => true
            | _ => false) &&
           (match jGet s "lang".data with
            | some (.jstr l) => l == "en".data || l == "pl".data
            | _ => false)))
  | _ => false

/-- Extraction of the validated segments into the `TextSegment[]` shape the
caller consumes (in TS this is the unchecked cast of `response.segments`).
The defaults are unreachable for values accepted by `validateSegments`. -/
def toSeg (v : JValue) : Seg :=
  { text := match jGet v "text".data with
            | some (.jstr s) => s
            | _ => []
    lang := match jGet v "lang".data with
            | some (.jstr l) => if l == "pl".data then .pl else .en
            | _ => .en
    baseEn := match jGet v "baseEn".data with
              | some (.jstr s) => some s
              | _ => none }

def toSegs (segments : Option JValue) : List Seg :=
  match segments with
  | some (.jarr xs) => xs.map toSeg
  | _ => []

/-- deepseek.ts line 6. -/
def MAX_PARA_CHARS : Nat := 3000

/-- deepseek.ts lines 116–119: the text actually sent to the service. -/
def truncInput (paragraphText : List Char) : List Char :=
  if MAX_PARA_CHARS < paragraphText.length then paragraphText.take MAX_PARA_CHARS
  else paragraphText

/-- One outcome of `callDeepSeek`: a thrown error (HTTP failure, network
failure, `JSON.parse` failure) or the parsed response value. -/
abbrev CallOutcome := Except Unit JValue

/-- The Enrichment Client as the adapter sees it: for a given input text,
density and attempt number (0 = first try, 1 = retry), one `callDeepSeek`
outcome.  The fixed backoff before the retry is a timing effect with no
bearing on the data flow and is not modelled. -/
abbrev Client := List Char → Nat → Nat → CallOutcome

/-- Result of `processChunk` together with the number of `callDeepSeek`
invocations it performed. -/
structure ChunkResult where
  segments : List Seg
  calls : Nat
deriving DecidableEq, Repr

/-- deepseek.ts lines 121–128: one attempt — call, then validate
`response.segments` against the (truncated) input; an invalid shape throws
just like a failed call. -/
def attemptOutcome (client : Client) (text : List Char) (density n : Nat) :
    Option (List Seg) :=
  match client text density n with
  | .error _ => none
  | .ok v =>
    let segs := jGet v "segments".data
    if validateSegments segs text then some (toSegs segs) else none

/-- deepseek.ts lines 108–143 (`processChunk`): truncate, try once, retry
once after the backoff, and fall back to a single `en` segment holding the
untruncated input when both attempts fail.  The function never throws. -/
def processChunk (paragraphText : List Char) (density : Nat) (client : Client) :
    ChunkResult :=
  let fallback : List Seg := [⟨paragraphText, .en, some []⟩]
  let text := truncInput paragraphText
  match attemptOutcome client text density 0 with
  | some segs => ⟨segs, 1⟩
  | none =>
    match attemptOutcome client text density 1 with
    | some segs => ⟨segs, 2⟩
    | none => ⟨fallback, 2⟩

/-! ## Paragraph states, cache and `engine.process` (useBookReader.ts) -/

inductive Status where
  | idle
  | loading
  | done
  | error
deriving DecidableEq, Repr

/-- useBookReader.ts lines 9–13 (`ParagraphState`). -/
structure Para where
  raw : List Char
  segments : Option (List Seg)
  status : Status
deriving DecidableEq, Repr

/-- The fresh collection built on stream start / navigation
(useBookReader.ts lines 206–208 and 229–231). -/
def freshParas (paragraphs : List (List Char)) : List Para :=
  paragraphs.map (fun r => ⟨r, none, .idle⟩)

/-- useBookReader.ts lines 81–88 (`patchParagraph`): no-op when the index is
absent from the current collection, otherwise merge the patch into the
element. -/
def patchParagraph (paras : List Para) (idx : Nat) (patch : Para → Para) : List Para :=
  match paras.get? idx with
  | none => paras
  | some p => paras.set idx (patch p)

/-- The `{ segments, status: 'done' }` patch of lines 151 and 164. -/
def patchSegsDone (paras : List Para) (idx : Nat) (segs : List Seg) : List Para :=
  patchParagraph paras idx (fun p => { p with segments := some segs, status := .done })

/-- The `{ status }` patch of lines 156 and 166. -/
def patchStatus (paras : List Para) (idx : Nat) (st : Status) : List Para :=
  patchParagraph paras idx (fun p => { p with status := st })

/-- Cache key `(bookId, chapterIdx, paragraphIdx, density)`
(useBookReader.ts lines 17–18). -/
abbrev CacheKey := Nat × Nat × Nat × Nat

/-- The sessionStorage cache, abstracted to a typed map: `readCache` parses
the stored JSON back into segments and `writeCache` stores them
(useBookReader.ts lines 32–46; serialization and the opportunistic pruning
sweep are not modelled). -/
abbrev CacheMap := CacheKey → Option (List Seg)

def emptyCache : CacheMap := fun _ => none

def writeCache (cache : CacheMap) (key : CacheKey) (segs : List Seg) : CacheMap :=
  fun k => if k = key then some segs else cache k

/-- What one `engine.process(idx)` run leaves behind: the cache, the
paragraph collection, and how many `callDeepSeek` invocations happened. -/
structure ProcOut where
  cache : CacheMap
  paras : List Para
  calls : Nat

/-- useBookReader.ts lines 134–170 (`engine.process`), data effects only.
`hasBook`/`hasApiKey` model the `!book || !apiKey` guard of line 147;
`recordWords` (the external vocabulary sink) and the in-flight bookkeeping of
`done()` are outside this slice — the latter is analysed separately in the
scheduler transition system. -/
def processModel (hasBook hasApiKey : Bool) (cache : CacheMap)
    (bookId chIdx density : Nat) (paras : List Para) (idx : Nat)
    (client : Client) : ProcOut :=
  if !hasBook || !hasApiKey then ⟨cache, paras, 0⟩
  else
    match cache (bookId, chIdx, idx, density) with
    | some cached => ⟨cache, patchSegsDone paras idx cached, 0⟩
    | none =>
      let paras1 := patchStatus paras idx .loading
      let rawText := ((paras1.get? idx).map (·.raw)).getD []
      if rawText = [] then ⟨cache, paras1, 0⟩
      else
        let r := processChunk rawText density client
        ⟨writeCache cache (bookId, chIdx, idx, density) r.segments,
         patchSegsDone paras1 idx r.segments, r.calls⟩

/-! ## The scheduler as a transition system (useBookReader.ts lines 7, 74–132)

`enqueue`/`drain` run synchronously; a started `process(idx)` is an
outstanding asynchronous operation whose only scheduling effects are the
`done()` epilogue (remove from the in-flight set, decrement the counter,
drain again).  Completion, and any `patchParagraph` a running operation
performs, are modelled as separate interleaved steps, which over-approximates
the single-threaded event loop. -/

/-- useBookReader.ts line 7. -/
def MAX_CONCURRENT : Nat := 2

/-- `queueRef` / `inFlightRef` / `concurrentRef` plus the paragraph statuses
the guards read.  `statuses` is the `status` projection of
`paragraphsRef.current`. -/
structure SchedState where
  queue : List Nat
  inFlight : List Nat
  concurrent : Nat
  statuses : List Status
deriving DecidableEq, Repr

/-- useBookReader.ts lines 122–132 (`engine.drain`): the while loop, as
structural recursion over the pending queue.  Returns the remaining queue,
the in-flight set and the counter. -/
def drainAux (q : List Nat) (inFlight : List Nat) (concurrent : Nat)
    (statuses : List Status) : List Nat × List Nat × Nat :=
  match q with
  | [] => ([], inFlight, concurrent)
  | idx :: rest =>
    if concurrent < MAX_CONCURRENT then
      if inFlight.contains idx then drainAux rest inFlight concurrent statuses
      else if statuses.get? idx = some .idle then
        drainAux rest (idx :: inFlight) (concurrent + 1) statuses
      else drainAux rest inFlight concurrent statuses
    else (q, inFlight, concurrent)

def drain (s : SchedState) : SchedState :=
  let (q, f, c) := drainAux s.queue s.inFlight s.concurrent s.statuses
  { s with queue := q, inFlight := f, concurrent := c }

/-- useBookReader.ts lines 113–120 (`engine.enqueue`): guarded append then
drain. -/
def enqueue (idx : Nat) (s : SchedState) : SchedState :=
  if s.statuses.get? idx = some .idle ∧ ¬ s.inFlight.contains idx ∧
      ¬ s.queue.contains idx then
    drain { s with queue := s.queue ++ [idx] }
  else s

/-- The `done()` epilogue of `engine.process` (useBookReader.ts lines
140–144): delete from the in-flight set, `Math.max(0, c - 1)` (which is `Nat`
truncated subtraction), drain again. -/
def completeOp (idx : Nat) (s : SchedState) : SchedState :=
  drain { s with inFlight := s.inFlight.erase idx,
                 concurrent := s.concurrent - 1 }

/-- A status write performed by a running `process` (`patchParagraph`). -/
def writeStatus (idx : Nat) (st : Status) (s : SchedState) : SchedState :=
  { s with statuses := if idx < s.statuses.length
                       then s.statuses.set idx st else s.statuses }

/-- States reachable from a reset scheduler (`engine.reset` leaves
`queue = []`, `inFlight = ∅`, `concurrent = 0` over some fresh status list)
without any further reset: any interleaving of `enqueue` calls, status
writes by running operations, and completions of in-flight operations.  A
completion is only possible for an index that is actually in flight — each
started operation runs `done()` exactly once, and in the absence of a reset
nothing else removes it from the set. -/
inductive Reachable (init : List Status) : SchedState → Prop where
  | init : Reachable init ⟨[], [], 0, init⟩
  | enqueue (idx : Nat) {s : SchedState} :
      Reachable init s → Reachable init (enqueue idx s)
  | write (idx : Nat) (st : Status) {s : SchedState} :
      Reachable init s → Reachable init (writeStatus idx st s)
  | complete (idx : Nat) {s : SchedState} :
      Reachable init s → idx ∈ s.inFlight → Reachable init (completeOp idx s)


def InvF (f : List Nat) (c : Nat) : Prop :=
  f.Nodup ∧ c = f.length ∧ c ≤ MAX_CONCURRENT

theorem drainAux_inv (sts : List Status) :
    ∀ (q f : List Nat) (c : Nat), InvF f c →
      InvF (drainAux q f c sts).2.1 (drainAux q f c sts).2.2 := by
  intro q
  induction q with
  | nil => intro f c h; simpa [drainAux] using h
  | cons idx rest ih =>
    intro f c h
    obtain ⟨hnd, hlen, hle⟩ := h
    by_cases hc : c < MAX_CONCURRENT
    · by_cases hm : idx ∈ f
      · simpa [drainAux, hc, hm] using ih f c ⟨hnd, hlen, hle⟩
      · by_cases hs : sts[idx]? = some Status.idle
        · have hinv : InvF (idx :: f) (c + 1) :=
            ⟨List.nodup_cons.mpr ⟨hm, hnd⟩, by simp [hlen], hc⟩
          simpa [drainAux, hc, hm, hs] using ih (idx :: f) (c + 1) hinv
        · simpa [drainAux, hc, hm, hs] using ih f c ⟨hnd, hlen, hle⟩
    · simp only [drainAux, if_neg hc]
      exact ⟨hnd, hlen, hle⟩

def Inv (s : SchedState) : Prop := InvF s.inFlight s.concurrent

theorem drain_inv {s : SchedState} (h : Inv s) : Inv (drain s) := by
  have := drainAux_inv s.statuses s.queue s.inFlight s.concurrent h
  simpa [drain, Inv] using this

theorem reachable_inv {init : List Status} {s : SchedState}
    (h : Reachable init s) : Inv s := by
  induction h with
  | init => exact ⟨List.nodup_nil, rfl, by norm_num [MAX_CONCURRENT]⟩
  | enqueue idx h ih =>
    unfold enqueue
    split
    · exact drain_inv ih
    · exact ih
  | write idx st h ih => exact ih
  | @complete idx t h hmem ih =>
    obtain ⟨hnd, hlen, hle⟩ := ih
    apply drain_inv
    refine ⟨hnd.erase idx, ?_, ?_⟩
    · show t.concurrent - 1 = (t.inFlight.erase idx).length
      rw [List.length_erase_of_mem hmem, hlen]
    · show t.concurrent - 1 ≤ MAX_CONCURRENT
      omega


/-! ## Concrete instances used by the claim theorems -/

/-- Concatenation of the segments' text fields, in order. -/
def concatTexts (segs : List Seg) : List Char :=
  (segs.map (·.text)).flatten

/-- A client that always fails (transport error on every call). -/
def clientFail : Client := fun _ _ _ => .error ()

/-- A syntactically valid response whose segments do not reconstruct the
input: one `en` segment reading `"zz"`. -/
def respZZ : JValue :=
  .jobj [("segments".data,
          .jarr [.jobj [("text".data, .jstr "zz".data),
                        ("lang".data, .jstr "en".data),
                        ("baseEn".data, .jstr [])]])]

/-- A client that always answers `respZZ`. -/
def clientZZ : Client := fun _ _ _ => .ok respZZ

/-- A segment object whose `text` field is the empty string. -/
def segEmptyText : JValue :=
  .jobj [("text".data, .jstr []), ("lang".data, .jstr "en".data)]

/-- Modelled from the claim's words (spec §7 `InvalidEnrichmentResult` /
§4.2 validation): accept exactly the non-empty ordered lists in which every
element has a NON-EMPTY string `text` field and a recognized language tag. -/
def claimAccepts (segments : Option JValue) : Bool :=
  match segments with
  | some (.jarr xs) =>
    !xs.isEmpty &&
      xs.all (fun s =>
        (match jGet s "text".data with
         | some (.jstr t) => !t.isEmpty
         | _ => false) &&
        (match jGet s "lang".data with
         | some (.jstr l) => l == "en".data || l == "pl".data
         | _ => false))
  | _ => false

/-- The per-element shape check actually enforced by `validateSegments`:
an object (or array) carrying a string `text` (possibly empty) and a `lang`
equal to `en` or `pl`. -/
def segShape (s : JValue) : Bool :=
  (match s with
   | .jnull => false
   | .jbool _ => false
   | .jnum _ => false
   | .jstr _ => false
   | _ =>
     (match jGet s "text".data with
      | some (.jstr _) => true
      | _ => false) &&
     (match jGet s "lang".data with
      | some (.jstr l) => l == "en".data || l == "pl".data
      | _ => false))

/-- Paragraph sources for the 95-paragraph document of the early-emission
property. -/
def mkPara (i : Nat) : List Char :=
  "paragraph number ".data ++ (Nat.repr i).data

/-- A streamed document with a start marker, 95 valid paragraphs separated
by blank lines, no heading matches, and an end marker. -/
def doc95 : List (List Char) :=
  "*** START OF THE PROJECT GUTENBERG EBOOK ***".data ::
    ((List.range 95).flatMap (fun i => [mkPara i, []]) ++
      ["*** END OF THE PROJECT GUTENBERG EBOOK ***".data])

/-- A document whose third content line is the heading `"CHAPTER IV."`. -/
def docWithHeading : List (List Char) :=
  ["*** START OF THE PROJECT GUTENBERG EBOOK ***".data,
   "This is the opening paragraph of the book.".data,
   [],
   "CHAPTER IV.".data,
   "This is the second paragraph of the book.".data,
   [],
   "*** END OF THE PROJECT GUTENBERG EBOOK ***".data]

/-- The same document with the heading line replaced by
`"chapter of my life,"` (trailing comma). -/
def docWithComma : List (List Char) :=
  ["*** START OF THE PROJECT GUTENBERG EBOOK ***".data,
   "This is the opening paragraph of the book.".data,
   [],
   "chapter of my life,".data,
   [],
   "This is the second paragraph of the book.".data,
   [],
   "*** END OF THE PROJECT GUTENBERG EBOOK ***".data]

/-- The fresh, all-idle collection the scheduler owns right after a reset to
a three-paragraph chunk (generation G+1). -/
def gen2Paras : List Para :=
  freshParas ["new chapter paragraph one".data,
              "new chapter paragraph two".data,
              "new chapter paragraph three".data]

/-- Segments produced by an enrichment call issued for generation G. -/
def staleSegs : List Seg :=
  [⟨"stale generation-G enrichment".data, .en, some []⟩]

/-! ## Helper lemmas -/

theorem processChunk_fallback (raw : List Char) (d : Nat) (client : Client)
    (h0 : attemptOutcome client (truncInput raw) d 0 = none)
    (h1 : attemptOutcome client (truncInput raw) d 1 = none) :
    processChunk raw d client = ⟨[⟨raw, .en, some []⟩], 2⟩ := by
  simp [processChunk, h0, h1]

theorem patchParagraph_get2 {paras : List Para} {idx : Nat} {f : Para → Para} {p : Para}
    (h : paras.get? idx = some p) :
    (patchParagraph paras idx f).get? idx = some (f p) := by
  have hget : paras[idx]? = some p := by
    simpa [List.get?_eq_getElem?] using h
  simp [patchParagraph, h, hget, List.getElem?_set_self']

theorem patchParagraph_idem {paras : List Para} {idx : Nat} {p : Para} {f : Para → Para}
    (h : paras.get? idx = some p) (hf : f (f p) = f p) :
    patchParagraph (patchParagraph paras idx f) idx f = patchParagraph paras idx f := by
  have hget : paras[idx]? = some p := by
    simpa [List.get?_eq_getElem?] using h
  have h2 : (paras.set idx (f p))[idx]? = some (f p) := by
    simp [List.getElem?_set_self', hget]
  simp [patchParagraph, hget, h2, List.set_set, hf]


/-! ## Claims -/

/-- C2: on every scheduler state reachable from a reset state by any
sequence of `enqueue` calls (interleaved with status writes and completions
of in-flight operations, but with no intervening reset), the number of
simultaneously in-flight paragraph enrichment operations never exceeds
K = `MAX_CONCURRENT` = 2: both the concurrency counter and the size of the
in-flight set stay at or below 2. -/
theorem scheduler_concurrency_bound (init : List Status) (s : SchedState)
    (h : Reachable init s) :
    MAX_CONCURRENT = 2 ∧ s.concurrent ≤ 2 ∧ s.inFlight.length ≤ 2 := by
  obtain ⟨hnd, hlen, hle⟩ := reachable_inv h
  norm_num [MAX_CONCURRENT] at hle
  exact ⟨rfl, hle, by omega⟩

/-- Witness for `scheduler_concurrency_bound`: a concrete reachable state
(three enqueues on a three-paragraph idle chunk). -/
theorem scheduler_concurrency_bound_witness :
    (enqueue 2 (enqueue 1 (enqueue 0
      (⟨[], [], 0, [.idle, .idle, .idle]⟩ : SchedState)))).concurrent ≤ 2 :=
  (scheduler_concurrency_bound [.idle, .idle, .idle] _
    (Reachable.enqueue 2 (Reachable.enqueue 1
      (Reachable.enqueue 0 Reachable.init)))).2.1

/-- C8: a line is treated as a structural heading exactly when `CHAPTER_RE`
matches at its start (case-insensitively), its length is below 80, and it
does not end in a comma; `"CHAPTER IV."` triggers a chunk boundary in the
stream while `"chapter of my life,"` is folded into the paragraph text. -/
theorem heading_detection :
    isStructuralHeading "CHAPTER IV.".data = true ∧
    isStructuralHeading "chapter of my life,".data = false ∧
    streamChapters docWithHeading =
      [⟨"Part 1".data, ["This is the opening paragraph of the book.".data]⟩,
       ⟨"CHAPTER IV.".data, ["This is the second paragraph of the book.".data]⟩] ∧
    streamChapters docWithComma =
      [⟨"Part 1".data,
        ["This is the opening paragraph of the book.".data,
         "chapter of my life,".data,
         "This is the second paragraph of the book.".data]⟩] ∧
    (∀ s : List Char,
      isStructuralHeading s = true ↔
        (chapterReTest s = true ∧ s.length < 80 ∧ s.getLast? ≠ some ',')) := by
  refine ⟨by decide, by decide, by decide, by decide, ?_⟩
  intro s
  simp [isStructuralHeading, Bool.and_eq_true, decide_eq_true_iff, and_assoc]

set_option maxRecDepth 100000 in
/-- C9: a streamed document with no heading matches and exactly 95 valid
paragraphs emits exactly 4 chunks of 30, 30, 30 and 5 paragraphs, in
document order, under the distinct synthesized titles `"Part 1"` …
`"Part 4"`. -/
theorem early_chunk_emission :
    streamChapters doc95 =
      [⟨"Part 1".data, ((List.range 95).take 30).map mkPara⟩,
       ⟨"Part 2".data, (((List.range 95).drop 30).take 30).map mkPara⟩,
       ⟨"Part 3".data, (((List.range 95).drop 60).take 30).map mkPara⟩,
       ⟨"Part 4".data, ((List.range 95).drop 90).map mkPara⟩] ∧
    ((streamChapters doc95).map (·.title)).Nodup := by
  constructor
  · decide
  · decide


/-- C1: the claim requires that a stale in-flight resolution leave the
post-reset collection untouched, but the resolution continuation of
`engine.process` (useBookReader.ts line 164) applies
`patchParagraph(idx, { segments, status: 'done' })` against the *live*
`paragraphsRef`, with no generation tag: on the fresh generation-G+1
collection, the stale generation-G segments for paragraph 2 land in the new
chunk's state, flipping it from `idle` to `done`. -/
theorem stale_resolution_corrupts_fresh_collection :
    (patchSegsDone gen2Paras 2 staleSegs).get? 2 =
      some ⟨"new chapter paragraph three".data, some staleSegs, .done⟩ ∧
    gen2Paras.get? 2 = some ⟨"new chapter paragraph three".data, none, .idle⟩ ∧
    patchSegsDone gen2Paras 2 staleSegs ≠ gen2Paras := by
  exact ⟨by decide, by decide, by decide⟩

/-- C10: a paragraph longer than `MAX_PARA_CHARS` = 3000 characters is sent
to the service truncated to its first 3000 characters (the result therefore
depends only on that prefix), while the degraded fallback still carries the
full untruncated raw text. -/
theorem long_paragraph_truncation (raw : List Char) (d : Nat)
    (client c₁ c₂ : Client) (h : MAX_PARA_CHARS < raw.length) :
    truncInput raw = raw.take MAX_PARA_CHARS ∧
    (truncInput raw).length = MAX_PARA_CHARS ∧
    ((∀ n, c₁ (raw.take MAX_PARA_CHARS) d n = c₂ (raw.take MAX_PARA_CHARS) d n) →
      processChunk raw d c₁ = processChunk raw d c₂) ∧
    (attemptOutcome client (truncInput raw) d 0 = none →
      attemptOutcome client (truncInput raw) d 1 = none →
      (processChunk raw d client).segments = [⟨raw, .en, some []⟩]) := by
  have htr : truncInput raw = raw.take MAX_PARA_CHARS := by
    simp [truncInput, h]
  refine ⟨htr, ?_, ?_, ?_⟩
  · rw [htr]
    simp [List.length_take]
    omega
  · intro hagree
    simp [processChunk, attemptOutcome, htr, hagree 0, hagree 1]
  · intro h0 h1
    rw [processChunk_fallback raw d client h0 h1]

/-- Witness for `long_paragraph_truncation` at a 3001-character paragraph. -/
theorem long_paragraph_truncation_witness :
    MAX_PARA_CHARS < (List.replicate 3001 'a').length ∧
    truncInput (List.replicate 3001 'a') = (List.replicate 3001 'a').take MAX_PARA_CHARS :=
  ⟨by norm_num [MAX_PARA_CHARS], (long_paragraph_truncation (List.replicate 3001 'a') 10
    clientFail clientFail clientFail (by norm_num [MAX_PARA_CHARS])).1⟩


/-- C4: against an Enrichment Client that always fails, `processChunk`
performs exactly one retry (two `callDeepSeek` invocations), returns the
degraded fallback — a single source-language segment whose text is the raw
input — and the cache-miss `engine.process` run ends with the paragraph
`done` holding that fallback, never in the `error` state. -/
theorem fallback_on_persistent_failure
    (raw : List Char) (bid cid d idx : Nat) (cache : CacheMap)
    (paras : List Para) (p : Para) (client : Client)
    (hfail : ∀ n, attemptOutcome client (truncInput raw) d n = none)
    (hcache : cache (bid, cid, idx, d) = none)
    (hp : paras.get? idx = some p) (hraw : p.raw = raw) (hne : raw ≠ []) :
    processChunk raw d client = ⟨[⟨raw, .en, some []⟩], 2⟩ ∧
    (processModel true true cache bid cid d paras idx client).paras.get? idx =
      some ⟨raw, some [⟨raw, .en, some []⟩], .done⟩ ∧
    (processModel true true cache bid cid d paras idx client).calls = 2 := by
  have hpc := processChunk_fallback raw d client (hfail 0) (hfail 1)
  have h1 : (patchStatus paras idx .loading).get? idx =
      some { p with status := .loading } := patchParagraph_get2 hp
  have hrawText :
      (((patchStatus paras idx .loading).get? idx).map (·.raw)).getD [] = raw := by
    rw [h1]
    simpa using hraw
  have h2 := patchParagraph_get2
    (f := fun q => { q with segments := some [⟨raw, .en, some []⟩], status := .done }) h1
  constructor
  · exact hpc
  · simp only [processModel, hcache, hrawText, hpc, patchSegsDone]
    simp only [Bool.not_true, Bool.or_self, Bool.false_eq_true, if_false, hne]
    constructor
    · simpa [hraw] using h2
    · trivial


/-- Witness for `fallback_on_persistent_failure`: a concrete paragraph, an
empty cache, and the always-failing client. -/
theorem fallback_on_persistent_failure_witness :
    (processModel true true emptyCache 1 0 10
        [⟨"a paragraph long enough".data, none, .idle⟩] 0 clientFail).paras.get? 0 =
      some ⟨"a paragraph long enough".data,
            some [⟨"a paragraph long enough".data, .en, some []⟩], .done⟩ :=
  (fallback_on_persistent_failure "a paragraph long enough".data 1 0 10 0 emptyCache
    [⟨"a paragraph long enough".data, none, .idle⟩]
    ⟨"a paragraph long enough".data, none, .idle⟩ clientFail
    (fun _ => rfl) rfl rfl rfl (by decide)).2.1

/-- C6: the claim says the degraded fallback is never cached, but
`processChunk` returns the fallback as an ordinary resolution, so the
cache-miss path of `engine.process` (useBookReader.ts line 162) writes it:
with an always-failing client, the key's entry afterwards holds the fallback
segments even though both attempts failed. -/
theorem fallback_written_to_cache :
    (processModel true true emptyCache 1 0 10
        [⟨"a paragraph long enough".data, none, .idle⟩] 0 clientFail).cache (1, 0, 0, 10) =
      some [⟨"a paragraph long enough".data, .en, some []⟩] ∧
    attemptOutcome clientFail (truncInput "a paragraph long enough".data) 10 0 = none ∧
    attemptOutcome clientFail (truncInput "a paragraph long enough".data) 10 1 = none := by
  exact ⟨by decide, by decide, by decide⟩

/-- C6 (amended): a cache entry for the key is written exactly when a
cache-miss `engine.process` run completes an enrichment — whether the
resolution is a validated result or the degraded fallback — and a cache hit
writes nothing. -/
theorem cache_write_on_every_completion
    (cache : CacheMap) (bid cid d idx : Nat) (paras : List Para) (p : Para)
    (client : Client)
    (hp : paras.get? idx = some p) (hne : p.raw ≠ []) :
    (cache (bid, cid, idx, d) = none →
      (processModel true true cache bid cid d paras idx client).cache (bid, cid, idx, d) =
        some (processChunk p.raw d client).segments) ∧
    (∀ segs, cache (bid, cid, idx, d) = some segs →
      (processModel true true cache bid cid d paras idx client).cache = cache) := by
  constructor
  · intro hc
    have h1 : (patchStatus paras idx .loading).get? idx =
        some { p with status := .loading } := patchParagraph_get2 hp
    have hrawText :
        (((patchStatus paras idx .loading).get? idx).map (·.raw)).getD [] = p.raw := by
      rw [h1]
      simp
    simp only [processModel, hc, hrawText]
    simp [hne, writeCache]
  · intro segs hc
    simp [processModel, hc]

/-- Witness for `cache_write_on_every_completion`: concrete paragraph, empty
cache, always-failing client. -/
theorem cache_write_on_every_completion_witness :
    (processModel true true emptyCache 1 0 10
        [⟨"a paragraph long enough".data, none, .idle⟩] 0 clientFail).cache (1, 0, 0, 10) =
      some (processChunk "a paragraph long enough".data 10 clientFail).segments :=
  (cache_write_on_every_completion emptyCache 1 0 10 0
    [⟨"a paragraph long enough".data, none, .idle⟩]
    ⟨"a paragraph long enough".data, none, .idle⟩ clientFail rfl (by decide)).1 rfl

/-- C7: with a warm cache for the key, `engine.process` issues no enrichment
call and transitions the paragraph straight to `done` with the cached
segments; a second `process` on the resulting state again issues no call and
leaves the collection and cache exactly as they were: the cache hit is
idempotent. -/
theorem idempotent_cache_hit
    (cache : CacheMap) (bid cid d idx : Nat) (paras : List Para) (p : Para)
    (client : Client) (segs : List Seg)
    (hcache : cache (bid, cid, idx, d) = some segs)
    (hp : paras.get? idx = some p) :
    (processModel true true cache bid cid d paras idx client).calls = 0 ∧
    (processModel true true cache bid cid d paras idx client).cache = cache ∧
    (processModel true true cache bid cid d paras idx client).paras.get? idx =
      some ⟨p.raw, some segs, .done⟩ ∧
    processModel true true
        (processModel true true cache bid cid d paras idx client).cache
        bid cid d
        (processModel true true cache bid cid d paras idx client).paras
        idx client =
      processModel true true cache bid cid d paras idx client := by
  have hr1 : processModel true true cache bid cid d paras idx client =
      ⟨cache, patchSegsDone paras idx segs, 0⟩ := by
    simp [processModel, hcache]
  have hidem : patchSegsDone (patchSegsDone paras idx segs) idx segs =
      patchSegsDone paras idx segs :=
    patchParagraph_idem hp rfl
  refine ⟨by rw [hr1], by rw [hr1], ?_, ?_⟩
  · rw [hr1]
    simpa [patchSegsDone] using patchParagraph_get2
      (f := fun q => { q with segments := some segs, status := .done }) hp
  · rw [hr1]
    simp [processModel, hcache, patchSegsDone] at hidem ⊢
    exact hidem


/-- Witness for `idempotent_cache_hit`: a warm single-entry cache. -/
theorem idempotent_cache_hit_witness :
    (processModel true true
        (writeCache emptyCache (1, 0, 0, 10) [⟨"abc".data, .en, some []⟩])
        1 0 10 [⟨"a paragraph long enough".data, none, .idle⟩] 0 clientFail).calls = 0 :=
  (idempotent_cache_hit
    (writeCache emptyCache (1, 0, 0, 10) [⟨"abc".data, .en, some []⟩])
    1 0 10 0 [⟨"a paragraph long enough".data, none, .idle⟩]
    ⟨"a paragraph long enough".data, none, .idle⟩ clientFail
    [⟨"abc".data, .en, some []⟩] (by decide) rfl).1

/-- C5: claim-falsifying input — a segments list whose only element carries
an EMPTY `text` string passes `validateSegments` (which only checks
`typeof s.text === 'string'`), while the claim's acceptance predicate
(non-empty text fields) rejects it. -/
theorem empty_text_field_accepted :
    validateSegments (some (.jarr [segEmptyText])) "x".data = true ∧
    claimAccepts (some (.jarr [segEmptyText])) = false := by
  exact ⟨by decide, by decide⟩

/-- C5 (amended): `validateSegments` accepts exactly the non-empty arrays
whose every element is an object carrying a string `text` field (possibly
empty) and a `lang` tag equal to `en` or `pl`; acceptance never depends on
the original text, every non-array is rejected, and an invalid first
response is handled exactly like a failed first call. -/
theorem validation_characterization :
    (∀ (s : Option JValue) (o₁ o₂ : List Char),
        validateSegments s o₁ = validateSegments s o₂) ∧
    (∀ (xs : List JValue) (o : List Char),
        validateSegments (some (.jarr xs)) o = true ↔
          xs ≠ [] ∧ ∀ x ∈ xs, segShape x = true) ∧
    (∀ (s : Option JValue) (o : List Char),
        (∀ xs, s ≠ some (.jarr xs)) → validateSegments s o = false) ∧
    (∀ (raw : List Char) (d : Nat) (client : Client) (v : JValue),
        client (truncInput raw) d 0 = .ok v →
        validateSegments (jGet v "segments".data) (truncInput raw) = false →
        processChunk raw d client =
          processChunk raw d
            (fun text dens n => if n = 0 then .error () else client text dens n)) := by
  refine ⟨fun s o₁ o₂ => rfl, ?_, ?_, ?_⟩
  · intro xs o
    show (!xs.isEmpty && xs.all segShape) = true ↔ _
    simp [Bool.and_eq_true, List.all_eq_true, List.isEmpty_iff]
  · intro s o hnot
    match s with
    | none => rfl
    | some .jnull => rfl
    | some (.jbool _) => rfl
    | some (.jnum _) => rfl
    | some (.jstr _) => rfl
    | some (.jobj _) => rfl
    | some (.jarr xs) => exact absurd rfl (hnot xs)
  · intro raw d client v hcl hval
    simp [processChunk, attemptOutcome, hcl, hval]

/-- Witness for `validation_characterization`: a plain-string response is
rejected. -/
theorem validation_characterization_witness :
    validateSegments (some (.jstr "oops".data)) "x".data = false :=
  validation_characterization.2.2.1 (some (.jstr "oops".data)) "x".data
    (fun _ h => JValue.noConfusion (Option.some.inj h))

/-- C3: claim-falsifying run — `clientZZ` answers with a structurally valid
single segment `"zz"` for the paragraph `"ab"`; it passes validation on the
first attempt (no fallback), the scheduler reaches `done` with it, yet the
concatenation of the accepted segments differs from the original text
(`validateSegments` never compares against its `_original` argument). -/
theorem accepted_result_concat_mismatch :
    validateSegments (jGet respZZ "segments".data) "ab".data = true ∧
    (processModel true true emptyCache 1 0 10
        [⟨"ab".data, none, .idle⟩] 0 clientZZ).calls = 1 ∧
    (processModel true true emptyCache 1 0 10
        [⟨"ab".data, none, .idle⟩] 0 clientZZ).paras.get? 0 =
      some ⟨"ab".data, some [⟨"zz".data, .en, some []⟩], .done⟩ ∧
    concatTexts [⟨"zz".data, .en, some []⟩] ≠ "ab".data := by
  exact ⟨by decide, by decide, by decide, by decide⟩

/-- C3 (amended): on the fallback path the single source-language segment is
exactly the whole original input (so its concatenation is the original
text); for non-fallback accepted results the adapter checks structure only —
validation is independent of the original text — so their concatenation is
not guaranteed to reconstruct it. -/
theorem segment_concat_on_fallback :
    (∀ (raw : List Char) (d : Nat) (client : Client),
        attemptOutcome client (truncInput raw) d 0 = none →
        attemptOutcome client (truncInput raw) d 1 = none →
        (processChunk raw d client).segments = [⟨raw, .en, some []⟩] ∧
        concatTexts (processChunk raw d client).segments = raw) ∧
    (∀ (s : Option JValue) (o₁ o₂ : List Char),
        validateSegments s o₁ = validateSegments s o₂) := by
  constructor
  · intro raw d client h0 h1
    rw [processChunk_fallback raw d client h0 h1]
    exact ⟨rfl, by simp [concatTexts]⟩
  · intro s o₁ o₂
    rfl

/-- Witness for `segment_concat_on_fallback`: the always-failing client on
the paragraph `"ab"`. -/
theorem segment_concat_on_fallback_witness :
    (processChunk "ab".data 10 clientFail).segments = [⟨"ab".data, Lang.en, some []⟩] :=
  (segment_concat_on_fallback.1 "ab".data 10 clientFail rfl rfl).1

end Lexis
